import Mathlib

/-!
Verification of the Emotion Inference Orchestrator
(`src/emonet/src/emotion_detector.py`).

The development is a shallow embedding of the `EmotionDetector` class:

* Device selection (`_get_gpu_memory_usage`, `_select_best_gpu`): the
  external `nvidia-smi` query is modelled as an `Except` value holding the
  parsed rows `(index, used, total)`; Python's stable `list.sort` is
  modelled by `List.mergeSort`, which is stable.
* Model loading (`_load_model`): the filesystem is modelled as a predicate
  on path strings; `torch.load` and weight binding are external black
  boxes that succeed once the file exists.
* Preprocessing (`preprocess_image`): images are dimensions together with
  a total pixel function; `cv2.resize` is an external parameter.
* Prediction (`predict`): the SFD face localizer output is a parameter
  (a list of bounding boxes), the EmoNet forward pass is an opaque
  function from tensors to raw outputs, and the exponential used by
  softmax is a parameter (the theorems assume only its positivity).

Machine floats are modelled by `ℚ`; pixel coordinates by `ℤ`/`ℕ`.
-/

namespace EmotionDetector

/-- Compute device, as produced by `torch.device`: either the CPU or a
CUDA device identified by its index. -/
inductive Device where
  | cpu : Device
  | cuda (index : ℕ) : Device
deriving DecidableEq

/-- One row of the GPU query, as built by `_get_gpu_memory_usage` from a
`nvidia-smi --query-gpu=index,memory.used,memory.total` output line:
the dict `{"index": ..., "used": ..., "total": ..., "free": total - used}`. -/
structure GpuInfo where
  index : ℕ
  used : ℤ
  total : ℤ
  free : ℤ
deriving DecidableEq

/-- Model of `_get_gpu_memory_usage`.  The external `subprocess.run` of
`nvidia-smi` is modelled as an `Except Unit` value: `.error` when the
command raises (any exception is caught and turned into the empty list),
`.ok rows` when it returns parsed rows `(index, used, total)`.  Each row
becomes a `GpuInfo` with `free := total - used`. -/
def get_gpu_memory_usage (query : Except Unit (List (ℕ × ℤ × ℤ))) : List GpuInfo :=
  match query with
  | .error _ => []
  | .ok rows => rows.map (fun r => ⟨r.1, r.2.1, r.2.2, r.2.2 - r.2.1⟩)

/-- The comparator of `gpu_info.sort(key=lambda x: x["free"], reverse=True)`:
descending order of free memory. -/
def freeDesc (a b : GpuInfo) : Bool := b.free ≤ a.free

/-- Model of `_select_best_gpu`: query the GPUs, fall back to the CPU when
the list is empty, otherwise sort by descending free memory (Python's
`list.sort` is stable; so is `List.mergeSort`) and take the first entry. -/
def select_best_gpu (query : Except Unit (List (ℕ × ℤ × ℤ))) : Device :=
  let gpu_info := get_gpu_memory_usage query
  match gpu_info.mergeSort freeDesc with
  | [] => Device.cpu
  | best :: _ => Device.cuda best.index

theorem freeDesc_trans : ∀ a b c, freeDesc a b → freeDesc b c → freeDesc a c := by
  intro a b c hab hbc
  simp only [freeDesc, decide_eq_true_eq] at *
  omega

theorem freeDesc_total : ∀ a b, freeDesc a b || freeDesc b a := by
  intro a b
  simp only [freeDesc, Bool.or_eq_true, decide_eq_true_eq]
  omega

/-- The head of a stably sorted list dominates every element of the
original list. -/
theorem mergeSort_head_le_all {α : Type} {le : α → α → Bool}
    (trans : ∀ a b c, le a b → le b c → le a c)
    (total : ∀ a b, le a b || le b a)
    (l : List α) (b : α) (s : List α) (h : l.mergeSort le = b :: s) :
    ∀ g ∈ l, le b g := by
  intro g hg
  have hsorted := List.sorted_mergeSort trans total l
  rw [h] at hsorted
  have hmem : g ∈ l.mergeSort le := List.mem_mergeSort.mpr hg
  rw [h] at hmem
  rcases List.mem_cons.mp hmem with h' | hmem'
  · subst h'
    simpa using total g g
  · exact List.rel_of_pairwise_cons hsorted hmem'

/-- Stability: the head of the sorted list occurs in the original list
after only elements strictly below it in the order (every element before
it fails the comparison against it). -/
theorem mergeSort_head_first {α : Type} {le : α → α → Bool}
    (trans : ∀ a b c, le a b → le b c → le a c)
    (total : ∀ a b, le a b || le b a) :
    ∀ (l : List α) (b : α) (s : List α), l.mergeSort le = b :: s →
      ∃ pre post, l = pre ++ b :: post ∧ ∀ g ∈ pre, le g b = false := by
  intro l
  induction l with
  | nil => intro b s h; simp at h
  | cons a t ih =>
    intro b s h
    obtain ⟨l₁, l₂, h₁, h₂, h₃⟩ := List.mergeSort_cons trans total a t
    rw [h] at h₁
    match l₁, h₁, h₂, h₃ with
    | [], h₁, h₂, h₃ =>
      simp only [List.nil_append] at h₁
      injection h₁ with hb hs
      subst hb
      exact ⟨[], t, rfl, by simp⟩
    | c :: l₁', h₁, h₂, h₃ =>
      simp only [List.cons_append] at h₁
      injection h₁ with hb hs
      obtain ⟨pre', post', ht, hpre'⟩ := ih c (l₁' ++ l₂) (by simpa using h₂)
      refine ⟨a :: pre', post', by simp [ht, hb], ?_⟩
      intro g hg
      rcases List.mem_cons.mp hg with h' | hg'
      · subst h'
        have := h₃ c (by simp)
        simpa [hb] using this
      · simpa [hb] using hpre' g hg'

/-- C3.  For every nonempty row list returned by the device query,
`_select_best_gpu` selects the device with the greatest free memory, and
among ties the one earliest in the original enumeration order: the
selected entry occurs in the parsed list preceded only by entries with
strictly smaller free memory. -/
theorem select_best_gpu_picks_max (rows : List (ℕ × ℤ × ℤ)) (hne : rows ≠ []) :
    ∃ best pre post,
      select_best_gpu (.ok rows) = Device.cuda best.index ∧
      get_gpu_memory_usage (.ok rows) = pre ++ best :: post ∧
      (∀ g ∈ get_gpu_memory_usage (.ok rows), g.free ≤ best.free) ∧
      (∀ g ∈ pre, g.free < best.free) := by
  have hlen : (get_gpu_memory_usage (.ok rows)).length = rows.length := by
    simp [get_gpu_memory_usage]
  have hlenpos : 0 < (get_gpu_memory_usage (.ok rows)).length := by
    rw [hlen]
    exact List.length_pos.mpr hne
  have hslen : ((get_gpu_memory_usage (.ok rows)).mergeSort freeDesc).length =
      (get_gpu_memory_usage (.ok rows)).length := List.length_mergeSort _
  obtain ⟨best, s, hsort⟩ :
      ∃ best s, (get_gpu_memory_usage (.ok rows)).mergeSort freeDesc = best :: s := by
    match hm : (get_gpu_memory_usage (.ok rows)).mergeSort freeDesc with
    | [] => rw [hm] at hslen; simp at hslen; omega
    | b :: s => exact ⟨b, s, rfl⟩
  refine ⟨best, ?_⟩
  obtain ⟨pre, post, hsplit, hpre⟩ :=
    mergeSort_head_first freeDesc_trans freeDesc_total _ best s hsort
  refine ⟨pre, post, ?_, hsplit, ?_, ?_⟩
  · simp only [select_best_gpu]
    rw [hsort]
  · intro g hg
    have := mergeSort_head_le_all freeDesc_trans freeDesc_total _ best s hsort g hg
    simpa [freeDesc, decide_eq_true_eq] using this
  · intro g hg
    have := hpre g hg
    simp only [freeDesc, decide_eq_false_iff_not] at this
    omega

/-- Witness for C3: the spec's concrete device list
`[(index 0, used 1000, total 2000), (index 1, used 500, total 2000)]`
(free memory 1000 and 1500) selects CUDA device 1, and the general
maximality statement holds for it. -/
theorem select_best_gpu_picks_max_witness :
    select_best_gpu (.ok [(0, 1000, 2000), (1, 500, 2000)]) = Device.cuda 1 ∧
    ∃ best pre post,
      select_best_gpu (.ok [(0, 1000, 2000), (1, 500, 2000)]) = Device.cuda best.index ∧
      get_gpu_memory_usage (.ok [(0, 1000, 2000), (1, 500, 2000)]) = pre ++ best :: post ∧
      (∀ g ∈ get_gpu_memory_usage (.ok [(0, 1000, 2000), (1, 500, 2000)]),
        g.free ≤ best.free) ∧
      (∀ g ∈ pre, g.free < best.free) :=
  ⟨by simp [select_best_gpu, get_gpu_memory_usage, List.mergeSort, List.splitInTwo,
      List.merge, freeDesc],
    select_best_gpu_picks_max [(0, 1000, 2000), (1, 500, 2000)] (by decide)⟩

/-- C4.  Whenever the device query raises (modelled as `.error`) or
returns an empty device list, selection returns the CPU device.  The
function is total: the failure is absorbed, never surfaced. -/
theorem select_best_gpu_cpu_fallback (query : Except Unit (List (ℕ × ℤ × ℤ)))
    (h : (∃ err, query = .error err) ∨ query = .ok []) :
    select_best_gpu query = Device.cpu := by
  rcases h with ⟨err, rfl⟩ | rfl <;> simp [select_best_gpu, get_gpu_memory_usage]

/-- Witness for C4: a failing query selects the CPU. -/
theorem select_best_gpu_cpu_fallback_witness :
    select_best_gpu (.error ()) = Device.cpu :=
  select_best_gpu_cpu_fallback (.error ()) (Or.inl ⟨(), rfl⟩)

/-- The weights path built by `_load_model`: the file
`pretrained/emonet_{n_classes}.pth` next to the source tree (the
`Path(__file__).parents[1]` prefix is elided, it is constant). -/
def weights_path (n_classes : ℕ) : String :=
  "pretrained/emonet_" ++ toString n_classes ++ ".pth"

/-- The loaded model as held by the detector after `_load_model`: an
`EmoNet(n_expression=n_classes)` instance in eval mode.  The weight
values themselves are opaque. -/
structure ModelHandle where
  n_expression : ℕ
  eval_mode : Bool
deriving DecidableEq

/-- Model of `_load_model`.  The filesystem is a predicate on paths;
`state_dict_path.exists()` failing raises `FileNotFoundError` with the
shown message, which aborts startup (modelled as `.error`).  When the
file exists, `torch.load`, the `module.` prefix stripping, and the
lenient `load_state_dict` are external steps that proceed, and the model
is switched to eval mode. -/
def load_model (file_exists : String → Bool) (n_classes : ℕ) :
    Except String ModelHandle :=
  if file_exists (weights_path n_classes) then
    .ok { n_expression := n_classes, eval_mode := true }
  else
    .error ("Model weights not found at " ++ weights_path n_classes)

/-- C9.  Model loading fails fatally exactly when the weights file at the
path derived from `class_count` is absent; when the file exists, loading
proceeds and does not abort. -/
theorem load_model_fatal_iff_missing (file_exists : String → Bool) (n_classes : ℕ) :
    ((∃ msg, load_model file_exists n_classes = .error msg) ↔
      file_exists (weights_path n_classes) = false) ∧
    (file_exists (weights_path n_classes) = true →
      ∃ h, load_model file_exists n_classes = .ok h) := by
  constructor
  · constructor
    · rintro ⟨msg, hmsg⟩
      by_contra hex
      simp only [Bool.not_eq_false] at hex
      simp [load_model, hex] at hmsg
    · intro hex
      exact ⟨"Model weights not found at " ++ weights_path n_classes,
        by simp [load_model, hex]⟩
  · intro hex
    exact ⟨{ n_expression := n_classes, eval_mode := true },
      by simp [load_model, hex]⟩

/-- Witness for C9: with an empty filesystem, loading the 8-class weights
fails; with a filesystem holding the file, it succeeds. -/
theorem load_model_fatal_iff_missing_witness :
    (∃ msg, load_model (fun _ => false) 8 = .error msg) ∧
    (∃ h, load_model (fun _ => true) 8 = .ok h) :=
  ⟨(load_model_fatal_iff_missing (fun _ => false) 8).1.mpr rfl,
    (load_model_fatal_iff_missing (fun _ => true) 8).2 rfl⟩

/-- Pixel values of an image: row, column, channel to intensity.
Intensities are bytes in the source; values outside the array bounds are
irrelevant junk carried by the total function. -/
abbrev PixelFn : Type := ℕ → ℕ → ℕ → ℕ

/-- A raw image as accepted by `preprocess_image`: either a 2-D
(grayscale) array or an h × w × c array. -/
inductive RawImage where
  | gray (h w : ℕ) (px : ℕ → ℕ → ℕ) : RawImage
  | color (h w c : ℕ) (px : PixelFn) : RawImage

/-- An image with an explicit channel count, the shape after the channel
normalization step of `preprocess_image`. -/
structure ColorImage where
  h : ℕ
  w : ℕ
  c : ℕ
  px : PixelFn

/-- Model of `cv2.resize`: an external deterministic function from the
source dimensions, pixels and target size to resized pixels.  Its
interpolation algorithm is opaque here. -/
abbrev ResizeFn : Type := ℕ → ℕ → PixelFn → ℕ → PixelFn

/-- The tensor produced by `preprocess_image`: shape
`[batch, channels, height, width]` with rational values. -/
structure Tensor where
  batch : ℕ
  channels : ℕ
  height : ℕ
  width : ℕ
  val : ℕ → ℕ → ℕ → ℕ → ℚ

/-- The channel-normalization step of `preprocess_image`: a 2-D
(grayscale) input is expanded to 3 channels by replication
(`cv2.cvtColor(..., COLOR_GRAY2RGB)`); a 4-channel input is reduced to
its first 3 channels (`image[:, :, :3]`); anything else passes through. -/
def ensure_rgb : RawImage → ColorImage
  | .gray h w px => ⟨h, w, 3, fun i j _ => px i j⟩
  | .color h w c px => if c = 4 then ⟨h, w, 3, px⟩ else ⟨h, w, c, px⟩

/-- Model of `preprocess_image`: normalize the channel count, resize to
`image_size × image_size`, scale intensities from [0, 255] to [0, 1],
permute to channel-leading layout, and add a batch dimension of size 1.
Placement on the device does not change values and is elided. -/
def preprocess_image (resize : ResizeFn) (image_size : ℕ) (image : RawImage) :
    Tensor :=
  let rgb := ensure_rgb image
  let resized := resize rgb.h rgb.w rgb.px image_size
  { batch := 1, channels := rgb.c, height := image_size, width := image_size,
    val := fun b ch i j => if b = 0 then (resized i j ch : ℚ) / 255 else 0 }

/-- C8.  Preprocessing a grayscale crop yields the same tensor as
preprocessing the 3-channel image obtained by replicating its channel,
and preprocessing a 4-channel (RGBA) crop yields the same tensor as
preprocessing the 3-channel image obtained by dropping the alpha
channel — for every resize function, target size and pixel content. -/
theorem preprocess_image_channel_normalization
    (resize : ResizeFn) (image_size h w : ℕ) (g : ℕ → ℕ → ℕ) (p : PixelFn) :
    preprocess_image resize image_size (.gray h w g) =
      preprocess_image resize image_size (.color h w 3 (fun i j _ => g i j)) ∧
    preprocess_image resize image_size (.color h w 4 p) =
      preprocess_image resize image_size (.color h w 3 p) := by
  constructor <;> rfl

/-- The fixed label table `emotion_classes` of the detector, a total
model of the 8-entry dict (indices outside 0..7 raise in Python and are
never reached under the class-count preconditions). -/
def emotion_classes : ℕ → String
  | 0 => "Neutral"
  | 1 => "Happy"
  | 2 => "Sad"
  | 3 => "Surprise"
  | 4 => "Fear"
  | 5 => "Disgust"
  | 6 => "Anger"
  | 7 => "Contempt"
  | _ => ""

/-- A face bounding box, the first four components of an entry returned
by the SFD localizer after `np.array(...).astype(np.int32)`. -/
structure FaceBox where
  x1 : ℤ
  y1 : ℤ
  x2 : ℤ
  y2 : ℤ
deriving DecidableEq

/-- The raw outputs of one EmoNet forward pass: the expression head of
width `nOut` (raw logits), and the valence and arousal scalars. -/
structure ModelOutput where
  nOut : ℕ
  expression : ℕ → ℚ
  valence : ℚ
  arousal : ℚ

/-- Softmax over the first `n` logits, as applied by
`nn.functional.softmax(output["expression"], dim=1)`.  The exponential
`e` is a parameter standing for the real exponential of the numeric
kernel; the theorems assume only that it is positive. -/
def softmax (e : ℚ → ℚ) (n : ℕ) (logits : ℕ → ℚ) : ℕ → ℚ :=
  fun i => e (logits i) / ((List.range n).map (fun j => e (logits j))).sum

/-- One step of the running-maximum fold behind `argmax`. -/
def argmaxStep (f : ℕ → ℚ) (best i : ℕ) : ℕ :=
  if f best < f i then i else best

/-- Model of `torch.argmax` over the first `n` entries of `f`: the index
of the first occurrence of the maximum. -/
def argmax (n : ℕ) (f : ℕ → ℚ) : ℕ :=
  (List.range n).foldl (argmaxStep f) 0

/-- Model of `Tensor.clamp(lo, hi)`: clip a value into `[lo, hi]`. -/
def clamp (lo hi x : ℚ) : ℚ := min (max x lo) hi

/-- The result dict of `predict`, with one `Option` field per key; the
`face_bbox` key is absent (`none`) in the no-face and invalid-crop
dicts, matching `result.get("face_bbox")` on the server side. -/
structure PredictOut where
  emotion : Option String
  emotion_class : Option ℕ
  valence : Option ℚ
  arousal : Option ℚ
  emotion_probabilities : Option (List (String × ℚ))
  face_detected : Bool
  message : Option String
  face_bbox : Option (List ℤ)
deriving DecidableEq

/-- The dict returned by `predict` when the localizer finds no face. -/
def no_face_result : PredictOut :=
  { emotion := none, emotion_class := none, valence := none, arousal := none,
    emotion_probabilities := none, face_detected := false,
    message := some "No face detected in image", face_bbox := none }

/-- The dict returned by `predict` when the clamped crop is empty. -/
def invalid_crop_result : PredictOut :=
  { emotion := none, emotion_class := none, valence := none, arousal := none,
    emotion_probabilities := none, face_detected := false,
    message := some "Invalid face crop", face_bbox := none }

/-- The bounds-clamping of the detected box against the image shape:
`bbox[0] = max(0, bbox[0])`, `bbox[1] = max(0, bbox[1])`,
`bbox[2] = min(image.shape[1], bbox[2])`, `bbox[3] = min(image.shape[0],
bbox[3])`. -/
def clamp_bbox (image : ColorImage) (face : FaceBox) : FaceBox :=
  { x1 := max 0 face.x1, y1 := max 0 face.y1,
    x2 := min (image.w : ℤ) face.x2, y2 := min (image.h : ℤ) face.y2 }

/-- Emptiness test of the crop `image[y1:y2, x1:x2, :]` for a clamped
box: `face_crop.size == 0` holds exactly when a slice has nonpositive
extent. -/
def crop_empty (b : FaceBox) : Bool :=
  b.x2 - b.x1 ≤ 0 || b.y2 - b.y1 ≤ 0

/-- The crop `image[bbox[1]:bbox[3], bbox[0]:bbox[2], :]` for a clamped
nonempty box: a sub-array with the box's extents, all channels kept. -/
def face_crop (image : ColorImage) (b : FaceBox) : RawImage :=
  .color (b.y2 - b.y1).toNat (b.x2 - b.x1).toNat image.c
    (fun i j k => image.px (b.y1.toNat + i) (b.x1.toNat + j) k)

/-- The normalization stage of `predict` on a raw model output: softmax
the logits, take the argmax class, clamp valence and arousal to [-1, 1],
and assemble the probability dict over the first `n_classes` labels and
the success dict with the clamped box. -/
def prediction_result (e : ℚ → ℚ) (n_classes : ℕ) (output : ModelOutput)
    (bbox : FaceBox) : PredictOut :=
  let emotion_probs := softmax e output.nOut output.expression
  let predicted_class := argmax output.nOut emotion_probs
  { emotion := some (emotion_classes predicted_class),
    emotion_class := some predicted_class,
    valence := some (clamp (-1) 1 output.valence),
    arousal := some (clamp (-1) 1 output.arousal),
    emotion_probabilities :=
      some ((List.range n_classes).map (fun i => (emotion_classes i, emotion_probs i))),
    face_detected := true,
    message := none,
    face_bbox := some [bbox.x1, bbox.y1, bbox.x2, bbox.y2] }

/-- Model of `predict`.  The localizer output `detected_faces` and the
EmoNet forward pass `model` are parameters (external black boxes); the
image is the RGB array handed in by the server.  The pipeline: no face
detected, else clamp the first box, reject an empty crop, else
preprocess the crop, run the model and normalize its outputs. -/
def predict (e : ℚ → ℚ) (n_classes image_size : ℕ) (resize : ResizeFn)
    (model : Tensor → ModelOutput) (image : ColorImage)
    (detected_faces : List FaceBox) : PredictOut :=
  match detected_faces with
  | [] => no_face_result
  | face :: _ =>
    let bbox := clamp_bbox image face
    if crop_empty bbox then invalid_crop_result
    else
      prediction_result e n_classes
        (model (preprocess_image resize image_size (face_crop image bbox))) bbox

/-- Reduction of `predict` on a first face whose clamped crop is
nonempty. -/
theorem predict_cons_valid (e : ℚ → ℚ) (n_classes image_size : ℕ)
    (resize : ResizeFn) (model : Tensor → ModelOutput) (image : ColorImage)
    (face : FaceBox) (rest : List FaceBox)
    (h : crop_empty (clamp_bbox image face) = false) :
    predict e n_classes image_size resize model image (face :: rest) =
      prediction_result e n_classes
        (model (preprocess_image resize image_size
          (face_crop image (clamp_bbox image face))))
        (clamp_bbox image face) := by
  simp [predict, h]

/-- C5.  When the face localizer returns an empty list, `predict`
returns the no-face dict: `face_detected` false, message
"No face detected in image", and every numeric field `None`.  The
function is total, so the outcome is a return value, never an
exception. -/
theorem predict_no_face (e : ℚ → ℚ) (n_classes image_size : ℕ)
    (resize : ResizeFn) (model : Tensor → ModelOutput) (image : ColorImage) :
    predict e n_classes image_size resize model image [] =
      { emotion := none, emotion_class := none, valence := none, arousal := none,
        emotion_probabilities := none, face_detected := false,
        message := some "No face detected in image", face_bbox := none } := rfl

/-- C6.  A detected box whose clamped crop has zero width or height makes
`predict` return the invalid-crop dict (message "Invalid face crop", all
numeric fields `None`); conversely a prediction (`face_detected = true`)
is emitted only when both clamped extents are positive. -/
theorem predict_invalid_crop (e : ℚ → ℚ) (n_classes image_size : ℕ)
    (resize : ResizeFn) (model : Tensor → ModelOutput) (image : ColorImage)
    (face : FaceBox) (rest : List FaceBox) :
    (crop_empty (clamp_bbox image face) = true →
      predict e n_classes image_size resize model image (face :: rest) =
        { emotion := none, emotion_class := none, valence := none, arousal := none,
          emotion_probabilities := none, face_detected := false,
          message := some "Invalid face crop", face_bbox := none }) ∧
    ((predict e n_classes image_size resize model image (face :: rest)).face_detected =
        true →
      0 < (clamp_bbox image face).x2 - (clamp_bbox image face).x1 ∧
      0 < (clamp_bbox image face).y2 - (clamp_bbox image face).y1) := by
  constructor
  · intro h
    simp [predict, h, invalid_crop_result]
  · intro hdet
    by_cases hc : crop_empty (clamp_bbox image face) = true
    · rw [show predict e n_classes image_size resize model image (face :: rest) =
          invalid_crop_result by simp [predict, hc]] at hdet
      simp [invalid_crop_result] at hdet
    · have hc' : crop_empty (clamp_bbox image face) = false := by simpa using hc
      simp only [crop_empty, Bool.or_eq_false_iff, decide_eq_false_iff_not,
        not_le] at hc'
      exact hc'

/-- Witness for C6: a 10 × 10 image and a detected box that clamps to
zero width produces exactly the invalid-crop dict. -/
theorem predict_invalid_crop_witness :
    predict (fun _ => 1) 8 256 (fun _ _ p _ => p) (fun _ => ⟨8, fun _ => 0, 0, 0⟩)
        ⟨10, 10, 3, fun _ _ _ => 0⟩ (⟨3, 3, 3, 9⟩ :: []) =
      { emotion := none, emotion_class := none, valence := none, arousal := none,
        emotion_probabilities := none, face_detected := false,
        message := some "Invalid face crop", face_bbox := none } :=
  (predict_invalid_crop (fun _ => 1) 8 256 (fun _ _ p _ => p)
    (fun _ => ⟨8, fun _ => 0, 0, 0⟩) ⟨10, 10, 3, fun _ _ _ => 0⟩
    ⟨3, 3, 3, 9⟩ []).1 (by decide)

/-- C10.  When a face was detected but its clamped crop is empty, the
invalid-crop dict carries `face_detected = false` — the same value as
the no-face dict — and agrees with it on every field except the message
string, so the two outcomes are distinguishable only by the message. -/
theorem predict_invalid_crop_flag_indistinct (e : ℚ → ℚ)
    (n_classes image_size : ℕ) (resize : ResizeFn)
    (model : Tensor → ModelOutput) (image : ColorImage)
    (face : FaceBox) (rest : List FaceBox)
    (h : crop_empty (clamp_bbox image face) = true) :
    (predict e n_classes image_size resize model image (face :: rest)).face_detected =
      false ∧
    (predict e n_classes image_size resize model image []).face_detected = false ∧
    (predict e n_classes image_size resize model image (face :: rest)).emotion =
      (predict e n_classes image_size resize model image []).emotion ∧
    (predict e n_classes image_size resize model image (face :: rest)).emotion_class =
      (predict e n_classes image_size resize model image []).emotion_class ∧
    (predict e n_classes image_size resize model image (face :: rest)).valence =
      (predict e n_classes image_size resize model image []).valence ∧
    (predict e n_classes image_size resize model image (face :: rest)).arousal =
      (predict e n_classes image_size resize model image []).arousal ∧
    (predict e n_classes image_size resize model image
        (face :: rest)).emotion_probabilities =
      (predict e n_classes image_size resize model image []).emotion_probabilities ∧
    (predict e n_classes image_size resize model image (face :: rest)).face_bbox =
      (predict e n_classes image_size resize model image []).face_bbox ∧
    (predict e n_classes image_size resize model image (face :: rest)).message =
      some "Invalid face crop" ∧
    (predict e n_classes image_size resize model image []).message =
      some "No face detected in image" ∧
    (predict e n_classes image_size resize model image (face :: rest)).message ≠
      (predict e n_classes image_size resize model image []).message := by
  have h1 : predict e n_classes image_size resize model image (face :: rest) =
      invalid_crop_result := by simp [predict, h]
  have h2 : predict e n_classes image_size resize model image [] =
      no_face_result := rfl
  rw [h1, h2]
  refine ⟨rfl, rfl, rfl, rfl, rfl, rfl, rfl, rfl, rfl, rfl, ?_⟩
  decide

/-- Witness for C10: the concrete zero-width box from the C6 witness,
checked against the no-face outcome on the same image. -/
theorem predict_invalid_crop_flag_indistinct_witness :
    (predict (fun _ => 1) 8 256 (fun _ _ p _ => p)
        (fun _ => ⟨8, fun _ => 0, 0, 0⟩) ⟨10, 10, 3, fun _ _ _ => 0⟩
        (⟨3, 3, 3, 9⟩ :: [])).face_detected = false ∧
    (predict (fun _ => 1) 8 256 (fun _ _ p _ => p)
        (fun _ => ⟨8, fun _ => 0, 0, 0⟩) ⟨10, 10, 3, fun _ _ _ => 0⟩
        []).face_detected = false ∧
    (predict (fun _ => 1) 8 256 (fun _ _ p _ => p)
        (fun _ => ⟨8, fun _ => 0, 0, 0⟩) ⟨10, 10, 3, fun _ _ _ => 0⟩
        (⟨3, 3, 3, 9⟩ :: [])).emotion =
      (predict (fun _ => 1) 8 256 (fun _ _ p _ => p)
        (fun _ => ⟨8, fun _ => 0, 0, 0⟩) ⟨10, 10, 3, fun _ _ _ => 0⟩ []).emotion ∧
    (predict (fun _ => 1) 8 256 (fun _ _ p _ => p)
        (fun _ => ⟨8, fun _ => 0, 0, 0⟩) ⟨10, 10, 3, fun _ _ _ => 0⟩
        (⟨3, 3, 3, 9⟩ :: [])).emotion_class =
      (predict (fun _ => 1) 8 256 (fun _ _ p _ => p)
        (fun _ => ⟨8, fun _ => 0, 0, 0⟩) ⟨10, 10, 3, fun _ _ _ => 0⟩
        []).emotion_class ∧
    (predict (fun _ => 1) 8 256 (fun _ _ p _ => p)
        (fun _ => ⟨8, fun _ => 0, 0, 0⟩) ⟨10, 10, 3, fun _ _ _ => 0⟩
        (⟨3, 3, 3, 9⟩ :: [])).valence =
      (predict (fun _ => 1) 8 256 (fun _ _ p _ => p)
        (fun _ => ⟨8, fun _ => 0, 0, 0⟩) ⟨10, 10, 3, fun _ _ _ => 0⟩ []).valence ∧
    (predict (fun _ => 1) 8 256 (fun _ _ p _ => p)
        (fun _ => ⟨8, fun _ => 0, 0, 0⟩) ⟨10, 10, 3, fun _ _ _ => 0⟩
        (⟨3, 3, 3, 9⟩ :: [])).arousal =
      (predict (fun _ => 1) 8 256 (fun _ _ p _ => p)
        (fun _ => ⟨8, fun _ => 0, 0, 0⟩) ⟨10, 10, 3, fun _ _ _ => 0⟩ []).arousal ∧
    (predict (fun _ => 1) 8 256 (fun _ _ p _ => p)
        (fun _ => ⟨8, fun _ => 0, 0, 0⟩) ⟨10, 10, 3, fun _ _ _ => 0⟩
        (⟨3, 3, 3, 9⟩ :: [])).emotion_probabilities =
      (predict (fun _ => 1) 8 256 (fun _ _ p _ => p)
        (fun _ => ⟨8, fun _ => 0, 0, 0⟩) ⟨10, 10, 3, fun _ _ _ => 0⟩
        []).emotion_probabilities ∧
    (predict (fun _ => 1) 8 256 (fun _ _ p _ => p)
        (fun _ => ⟨8, fun _ => 0, 0, 0⟩) ⟨10, 10, 3, fun _ _ _ => 0⟩
        (⟨3, 3, 3, 9⟩ :: [])).face_bbox =
      (predict (fun _ => 1) 8 256 (fun _ _ p _ => p)
        (fun _ => ⟨8, fun _ => 0, 0, 0⟩) ⟨10, 10, 3, fun _ _ _ => 0⟩ []).face_bbox ∧
    (predict (fun _ => 1) 8 256 (fun _ _ p _ => p)
        (fun _ => ⟨8, fun _ => 0, 0, 0⟩) ⟨10, 10, 3, fun _ _ _ => 0⟩
        (⟨3, 3, 3, 9⟩ :: [])).message = some "Invalid face crop" ∧
    (predict (fun _ => 1) 8 256 (fun _ _ p _ => p)
        (fun _ => ⟨8, fun _ => 0, 0, 0⟩) ⟨10, 10, 3, fun _ _ _ => 0⟩ []).message =
      some "No face detected in image" ∧
    (predict (fun _ => 1) 8 256 (fun _ _ p _ => p)
        (fun _ => ⟨8, fun _ => 0, 0, 0⟩) ⟨10, 10, 3, fun _ _ _ => 0⟩
        (⟨3, 3, 3, 9⟩ :: [])).message ≠
      (predict (fun _ => 1) 8 256 (fun _ _ p _ => p)
        (fun _ => ⟨8, fun _ => 0, 0, 0⟩) ⟨10, 10, 3, fun _ _ _ => 0⟩ []).message :=
  predict_invalid_crop_flag_indistinct (fun _ => 1) 8 256 (fun _ _ p _ => p)
    (fun _ => ⟨8, fun _ => 0, 0, 0⟩) ⟨10, 10, 3, fun _ _ _ => 0⟩
    ⟨3, 3, 3, 9⟩ [] (by decide)

/-- C1.  Every prediction dict emitted by `predict` carries a bounding
box satisfying `0 ≤ x1 < x2 ≤ image width` and
`0 ≤ y1 < y2 ≤ image height`: clamping establishes the box invariant
for every emitted prediction. -/
theorem predict_bbox_invariant (e : ℚ → ℚ) (n_classes image_size : ℕ)
    (resize : ResizeFn) (model : Tensor → ModelOutput) (image : ColorImage)
    (detected_faces : List FaceBox) (a b c d : ℤ)
    (h : (predict e n_classes image_size resize model image
        detected_faces).face_bbox = some [a, b, c, d]) :
    0 ≤ a ∧ a < c ∧ c ≤ (image.w : ℤ) ∧ 0 ≤ b ∧ b < d ∧ d ≤ (image.h : ℤ) := by
  match detected_faces with
  | [] => simp [predict, no_face_result] at h
  | face :: rest =>
    by_cases hc : crop_empty (clamp_bbox image face) = true
    · rw [show predict e n_classes image_size resize model image (face :: rest) =
          invalid_crop_result by simp [predict, hc]] at h
      simp [invalid_crop_result] at h
    · have hc' : crop_empty (clamp_bbox image face) = false := by simpa using hc
      rw [predict_cons_valid e n_classes image_size resize model image face rest hc']
        at h
      simp only [prediction_result, Option.some.injEq, List.cons.injEq, and_true] at h
      obtain ⟨ha, hb, hcc, hd⟩ := h
      simp only [crop_empty, Bool.or_eq_false_iff, decide_eq_false_iff_not,
        not_le] at hc'
      simp only [clamp_bbox] at ha hb hcc hd hc'
      subst ha hb hcc hd
      refine ⟨le_max_left 0 face.x1, ?_, min_le_left _ _, le_max_left 0 face.y1, ?_,
        min_le_left _ _⟩ <;> omega

/-- Witness for C1: a 10 × 10 image with a detected box reaching outside
the image clamps to `[0, 0, 5, 6]`, which satisfies the invariant. -/
theorem predict_bbox_invariant_witness :
    (0 : ℤ) ≤ 0 ∧ (0 : ℤ) < 5 ∧ (5 : ℤ) ≤ ((10 : ℕ) : ℤ) ∧ (0 : ℤ) ≤ 0 ∧
      (0 : ℤ) < 6 ∧ (6 : ℤ) ≤ ((10 : ℕ) : ℤ) :=
  predict_bbox_invariant (fun _ => 1) 8 256 (fun _ _ p _ => p)
    (fun _ => ⟨8, fun _ => 0, 0, 0⟩) ⟨10, 10, 3, fun _ _ _ => 0⟩
    [⟨-2, -3, 5, 6⟩] 0 0 5 6 (by decide)

/-- Clamping never leaves the interval: the clamped value is at least
`lo` when `lo ≤ hi`. -/
theorem clamp_le_of_le (lo hi x : ℚ) (h : lo ≤ hi) : lo ≤ clamp lo hi x :=
  le_min (le_max_right x lo) h

/-- Clamping never leaves the interval: the clamped value is at most
`hi`. -/
theorem clamp_le_hi (lo hi x : ℚ) : clamp lo hi x ≤ hi :=
  min_le_right (max x lo) hi

/-- Clamping is idempotent whenever the interval is nonempty. -/
theorem clamp_idem (lo hi x : ℚ) (h : lo ≤ hi) :
    clamp lo hi (clamp lo hi x) = clamp lo hi x := by
  have h1 := clamp_le_of_le lo hi x h
  have h2 := clamp_le_hi lo hi x
  unfold clamp at h1 h2 ⊢
  rw [max_eq_left h1, min_eq_left h2]

/-- C7.  In every prediction dict, valence and arousal are present and
lie within [-1, 1] (each clamped independently), and the clamp operation
is idempotent. -/
theorem predict_valence_arousal_clamped (e : ℚ → ℚ) (n_classes image_size : ℕ)
    (resize : ResizeFn) (model : Tensor → ModelOutput) (image : ColorImage)
    (face : FaceBox) (rest : List FaceBox)
    (h : crop_empty (clamp_bbox image face) = false) :
    (∃ v a,
      (predict e n_classes image_size resize model image (face :: rest)).valence =
        some v ∧
      (predict e n_classes image_size resize model image (face :: rest)).arousal =
        some a ∧
      -1 ≤ v ∧ v ≤ 1 ∧ -1 ≤ a ∧ a ≤ 1) ∧
    ∀ x : ℚ, clamp (-1) 1 (clamp (-1) 1 x) = clamp (-1) 1 x := by
  constructor
  · rw [predict_cons_valid e n_classes image_size resize model image face rest h]
    refine ⟨_, _, rfl, rfl, ?_, ?_, ?_, ?_⟩
    · exact clamp_le_of_le (-1) 1 _ (by norm_num)
    · exact clamp_le_hi (-1) 1 _
    · exact clamp_le_of_le (-1) 1 _ (by norm_num)
    · exact clamp_le_hi (-1) 1 _
  · intro x
    exact clamp_idem (-1) 1 x (by norm_num)

/-- Witness for C7: the valid 10 × 10 crop scenario, with model outputs
2 and -3 that clamping must pull back into [-1, 1]. -/
theorem predict_valence_arousal_clamped_witness :
    (∃ v a,
      (predict (fun _ => 1) 8 256 (fun _ _ p _ => p)
          (fun _ => ⟨8, fun _ => 0, 2, -3⟩) ⟨10, 10, 3, fun _ _ _ => 0⟩
          (⟨-2, -3, 5, 6⟩ :: [])).valence = some v ∧
      (predict (fun _ => 1) 8 256 (fun _ _ p _ => p)
          (fun _ => ⟨8, fun _ => 0, 2, -3⟩) ⟨10, 10, 3, fun _ _ _ => 0⟩
          (⟨-2, -3, 5, 6⟩ :: [])).arousal = some a ∧
      -1 ≤ v ∧ v ≤ 1 ∧ -1 ≤ a ∧ a ≤ 1) ∧
    ∀ x : ℚ, clamp (-1) 1 (clamp (-1) 1 x) = clamp (-1) 1 x :=
  predict_valence_arousal_clamped (fun _ => 1) 8 256 (fun _ _ p _ => p)
    (fun _ => ⟨8, fun _ => 0, 2, -3⟩) ⟨10, 10, 3, fun _ _ _ => 0⟩
    ⟨-2, -3, 5, 6⟩ [] (by decide)

/-- Distributivity of a list sum over a common divisor. -/
theorem list_sum_map_div {α : Type} (l : List α) (g : α → ℚ) (S : ℚ) :
    (l.map (fun x => g x / S)).sum = (l.map g).sum / S := by
  induction l with
  | nil => simp
  | cons a t ih => simp [ih, add_div]

/-- The softmax values over all `n` outputs sum to exactly 1 for any
positive exponential and `n > 0`. -/
theorem softmax_sum_eq_one (e : ℚ → ℚ) (he : ∀ x, 0 < e x) (n : ℕ) (hn : 0 < n)
    (logits : ℕ → ℚ) :
    ((List.range n).map (fun i => softmax e n logits i)).sum = 1 := by
  have hS : 0 < ((List.range n).map (fun j => e (logits j))).sum := by
    apply List.sum_pos
    · intro y hy
      obtain ⟨j, _, rfl⟩ := List.mem_map.mp hy
      exact he _
    · simp only [ne_eq, List.map_eq_nil_iff, List.range_eq_nil]
      omega
  simp only [softmax]
  rw [list_sum_map_div]
  exact div_self (ne_of_gt hS)

/-- The running-maximum fold of `argmax` dominates its seed and every
scanned element. -/
theorem argmax_foldl_ge (f : ℕ → ℚ) :
    ∀ (l : List ℕ) (b : ℕ),
      f b ≤ f (l.foldl (argmaxStep f) b) ∧
      ∀ i ∈ l, f i ≤ f (l.foldl (argmaxStep f) b) := by
  intro l
  induction l with
  | nil => intro b; exact ⟨le_refl _, by simp⟩
  | cons a t ih =>
    intro b
    have hstep : f b ≤ f (argmaxStep f b a) ∧ f a ≤ f (argmaxStep f b a) := by
      by_cases hab : f b < f a
      · simp only [argmaxStep, if_pos hab]
        exact ⟨le_of_lt hab, le_refl _⟩
      · simp only [argmaxStep, if_neg hab]
        exact ⟨le_refl _, le_of_not_lt hab⟩
    obtain ⟨ih1, ih2⟩ := ih (argmaxStep f b a)
    refine ⟨le_trans hstep.1 ih1, ?_⟩
    intro i hi
    rcases List.mem_cons.mp hi with h' | hi'
    · subst h'
      exact le_trans hstep.2 ih1
    · exact ih2 i hi'

/-- The running-maximum fold returns either its seed or a scanned
element. -/
theorem argmax_foldl_mem (f : ℕ → ℚ) :
    ∀ (l : List ℕ) (b : ℕ), l.foldl (argmaxStep f) b ∈ b :: l := by
  intro l
  induction l with
  | nil => intro b; simp
  | cons a t ih =>
    intro b
    have h := ih (argmaxStep f b a)
    have hstep : argmaxStep f b a = b ∨ argmaxStep f b a = a := by
      by_cases hab : f b < f a
      · exact Or.inr (by simp [argmaxStep, hab])
      · exact Or.inl (by simp [argmaxStep, hab])
    simp only [List.foldl_cons]
    rcases List.mem_cons.mp h with h' | h'
    · rw [h']
      rcases hstep with h'' | h'' <;> simp [h'']
    · simp [h']

/-- For a positive count, the argmax index is in range. -/
theorem argmax_lt (f : ℕ → ℚ) (n : ℕ) (hn : 0 < n) : argmax n f < n := by
  have h := argmax_foldl_mem f (List.range n) 0
  rcases List.mem_cons.mp h with h' | h'
  · rw [argmax, h']
    exact hn
  · exact List.mem_range.mp h'

/-- The argmax value dominates every in-range value. -/
theorem argmax_spec (f : ℕ → ℚ) (n : ℕ) :
    ∀ i ∈ List.range n, f i ≤ f (argmax n f) :=
  (argmax_foldl_ge f (List.range n) 0).2

/-- The eight emotion labels are pairwise distinct. -/
theorem emotion_classes_inj :
    ∀ i < 8, ∀ j < 8, emotion_classes i = emotion_classes j → i = j := by decide

/-- C2.  Every prediction dict built with a positive exponential, a
nonzero class count of at most 8 (the label table's size), and a model
whose expression head has width `n_classes` (the claim's precondition:
`class_count` matches the model's output width) carries a probability
mapping with exactly `n_classes` distinct labels, values summing to 1
within 1e-4, and an `emotion_class` index in range pointing at an entry
of maximal probability. -/
theorem predict_probabilities_invariant (e : ℚ → ℚ) (n_classes image_size : ℕ)
    (resize : ResizeFn) (model : Tensor → ModelOutput) (image : ColorImage)
    (face : FaceBox) (rest : List FaceBox)
    (he : ∀ x, 0 < e x)
    (hwidth : ∀ t, (model t).nOut = n_classes)
    (hn : 0 < n_classes) (hn8 : n_classes ≤ 8)
    (hcrop : crop_empty (clamp_bbox image face) = false) :
    ∃ plist k,
      (predict e n_classes image_size resize model image
          (face :: rest)).emotion_probabilities = some plist ∧
      (predict e n_classes image_size resize model image
          (face :: rest)).emotion_class = some k ∧
      plist.length = n_classes ∧
      (plist.map Prod.fst).Nodup ∧
      |(plist.map Prod.snd).sum - 1| ≤ 1 / 10000 ∧
      k < n_classes ∧
      ∃ entry, plist[k]? = some entry ∧ ∀ p ∈ plist, p.2 ≤ entry.2 := by
  rw [predict_cons_valid e n_classes image_size resize model image face rest hcrop]
  have hO : (model (preprocess_image resize image_size
      (face_crop image (clamp_bbox image face)))).nOut = n_classes := hwidth _
  set output := model (preprocess_image resize image_size
    (face_crop image (clamp_bbox image face))) with houtput
  set probs := softmax e output.nOut output.expression with hprobs
  refine ⟨(List.range n_classes).map (fun i => (emotion_classes i, probs i)),
    argmax output.nOut probs, rfl, rfl, by simp, ?_, ?_, ?_, ?_⟩
  · rw [List.map_map]
    have : (Prod.fst ∘ fun i => (emotion_classes i, probs i)) = emotion_classes :=
      rfl
    rw [this]
    refine List.Nodup.map_on ?_ (List.nodup_range n_classes)
    intro i hi j hj hij
    exact emotion_classes_inj i (lt_of_lt_of_le (List.mem_range.mp hi) hn8) j
      (lt_of_lt_of_le (List.mem_range.mp hj) hn8) hij
  · rw [List.map_map]
    have : (Prod.snd ∘ fun i => (emotion_classes i, probs i)) =
        fun i => probs i := rfl
    rw [this]
    have hsum : ((List.range n_classes).map (fun i => probs i)).sum = 1 := by
      rw [hprobs, hO]
      exact softmax_sum_eq_one e he n_classes hn output.expression
    rw [hsum]
    norm_num
  · rw [hO] at *
    exact argmax_lt probs n_classes hn
  · refine ⟨(emotion_classes (argmax output.nOut probs),
      probs (argmax output.nOut probs)), ?_, ?_⟩
    · have hk : argmax output.nOut probs < n_classes := by
        rw [hO] at *
        exact argmax_lt probs n_classes hn
      simp [List.getElem?_map, List.getElem?_range, hk]
    · intro p hp
      obtain ⟨i, hi, rfl⟩ := List.mem_map.mp hp
      have : probs i ≤ probs (argmax output.nOut probs) := by
        rw [hO] at *
        exact argmax_spec probs n_classes i hi
      simpa using this

/-- Witness for C2: a concrete run on the valid 10 × 10 crop scenario
with the constant-one exponential and an 8-wide expression head. -/
theorem predict_probabilities_invariant_witness :
    ∃ plist k,
      (predict (fun _ => 1) 8 256 (fun _ _ p _ => p)
          (fun _ => ⟨8, fun _ => 0, 0, 0⟩) ⟨10, 10, 3, fun _ _ _ => 0⟩
          (⟨-2, -3, 5, 6⟩ :: [])).emotion_probabilities = some plist ∧
      (predict (fun _ => 1) 8 256 (fun _ _ p _ => p)
          (fun _ => ⟨8, fun _ => 0, 0, 0⟩) ⟨10, 10, 3, fun _ _ _ => 0⟩
          (⟨-2, -3, 5, 6⟩ :: [])).emotion_class = some k ∧
      plist.length = 8 ∧
      (plist.map Prod.fst).Nodup ∧
      |(plist.map Prod.snd).sum - 1| ≤ 1 / 10000 ∧
      k < 8 ∧
      ∃ entry, plist[k]? = some entry ∧ ∀ p ∈ plist, p.2 ≤ entry.2 :=
  predict_probabilities_invariant (fun _ => 1) 8 256 (fun _ _ p _ => p)
    (fun _ => ⟨8, fun _ => 0, 0, 0⟩) ⟨10, 10, 3, fun _ _ _ => 0⟩
    ⟨-2, -3, 5, 6⟩ [] (fun _ => by norm_num) (fun _ => rfl) (by norm_num)
    (by norm_num) (by decide)

end EmotionDetector
